import Mathlib

/-!
Verification of the Renova Hospitals voice-agent scheduling core.

The sources describe the appointment engine through the implementation
document (`handle_book_appointment`, `CalendarService.check_availability`,
`detect_customer_type`, `SessionManager.cleanup_session`,
`update_call_record_from_function`, `AvailabilityCache.check_availability`)
and the feature README (cancellation matching, alternative-slot rules,
working hours 9:00–18:00).  This file embeds those operations shallowly:
times are minutes on the natural numbers (a day has 1440 minutes), external
collaborators (Google Calendar, Gmail, Sheets) are oracle inputs, and the
Python dictionaries become association lists keyed by strings.
-/

namespace VoiceAgent

/-- A calendar time interval `[start, stop)` in minutes. -/
structure Ivl where
  start : Nat
  stop : Nat
deriving DecidableEq

/-- Modelled from the spec: the body of `CalendarService._check_time_conflicts`
is absent from the sources; the spec rules that two intervals conflict when
they overlap by a positive duration, touching endpoints excluded. -/
def overlapsB (a b : Ivl) : Bool :=
  decide (a.start < b.stop) && decide (b.start < a.stop)

/-- Modelled from the spec: the calendar collaborator's event query
(`events().list` with `timeMin`/`timeMax`) returns the events intersecting
the requested window. -/
def listEvents (allEvents : List Ivl) (s e : Nat) : List Ivl :=
  allEvents.filter (fun ev => overlapsB ev ⟨s, e⟩)

/-- Modelled from the spec: `CalendarService._check_time_conflicts` keeps the
fetched events that conflict with the requested window `[s, e)`. -/
def check_time_conflicts (events : List Ivl) (s e : Nat) : List Ivl :=
  events.filter (fun ev => overlapsB ev ⟨s, e⟩)

/-- Working hours start at 9:00 (minute 540 of the day). -/
def workStartMin : Nat := 540

/-- Working hours end at 18:00 (minute 1080 of the day). -/
def workEndMin : Nat := 1080

/-- Slot granularity: 30-minute steps. -/
def stepMin : Nat := 30

/-- Number of slot starts per working day. -/
def slotsPerDay : Nat := (workEndMin - workStartMin) / stepMin

/-- Start minute (counted from the requested date's midnight) of the `i`-th
candidate slot of the forward scan. -/
def candidateStart (i : Nat) : Nat :=
  (i / slotsPerDay) * 1440 + workStartMin + (i % slotsPerDay) * stepMin

/-- All candidate slot starts of a forward scan over `windowDays` days. -/
def candidates (windowDays : Nat) : List Nat :=
  (List.range (windowDays * slotsPerDay)).map candidateStart

/-- The half-open interval occupied by a 30-minute slot starting at `s`. -/
def slotIvl (s : Nat) : Ivl := ⟨s, s + stepMin⟩

/-- A candidate slot is free when the calendar query over its window yields
no conflicting event. -/
def slotFree (events : List Ivl) (s : Nat) : Bool :=
  (check_time_conflicts (listEvents events s (s + stepMin)) s (s + stepMin)).isEmpty

/-- Day distance of a slot start from the requested date. -/
def dayDist (s : Nat) : Nat := s / 1440

/-- Time-of-day distance between a slot start and the requested time. -/
def todDist (reqTod s : Nat) : Nat :=
  max (s % 1440) reqTod - min (s % 1440) reqTod

/-- Ranking comparison of the slot allocator: date distance first, then
time-of-day distance from the requested time. -/
def rankLe (req : Nat) (a b : Nat) : Bool :=
  if dayDist a = dayDist b then decide (todDist (req % 1440) a ≤ todDist (req % 1440) b)
  else decide (dayDist a < dayDist b)

/-- Modelled from the spec: the body of
`CalendarService._suggest_alternative_slots` (the SlotAllocator) is absent
from the sources; the spec rules a forward scan of `windowDays` days at
30-minute steps within working hours, keeping the candidates that pass the
availability check with zero conflicts, ranked by (date distance,
time-of-day distance), returning the first `count` (default 5, default
window 7 days).  The doctor-match tiebreak is omitted: slots carry no
doctor here, so it covers the unspecified-doctor case. -/
def SlotAllocator.suggest (events : List Ivl) (req windowDays count : Nat) : List Nat :=
  ((((candidates windowDays).filter (slotFree events)).mergeSort (rankLe req)).take count)

/-- A slot start lies within the configured working hours. -/
def inWorkingHours (s : Nat) : Bool :=
  decide (workStartMin ≤ s % 1440) && decide (s % 1440 + stepMin ≤ workEndMin)

/-- Result shape of `CalendarService.check_availability`. -/
structure AvailabilityResult where
  available : Bool
  conflicts : List Ivl
  alternatives : List Nat
deriving DecidableEq

/-- Embedding of `CalendarService.check_availability`: fetch the events
intersecting the requested window, compute the conflicts, and either report
the slot available or report the conflicts together with alternatives from
the slot allocator. -/
def CalendarService.check_availability (allEvents : List Ivl) (startMin duration : Nat) :
    AvailabilityResult :=
  let s := startMin
  let e := startMin + duration
  let fetched := listEvents allEvents s e
  let conflicts := check_time_conflicts fetched s e
  if conflicts.isEmpty then ⟨true, [], []⟩
  else ⟨false, conflicts, SlotAllocator.suggest allEvents startMin 7 5⟩

/-- Patient data extracted from a booking request. -/
structure PatientData where
  patient_name : String
  email : String
  phone : String
  slotStart : Nat
  duration : Nat
deriving DecidableEq

/-- What the verify-phase call to `calendar_service.check_availability`
returns inside `handle_book_appointment`.  `available = none` models a
collaborator-failure dictionary that carries no `available` key, which the
handler reads through `.get('available', True)`. -/
structure AvailCheckResult where
  available : Option Bool
  alternatives : List Nat
deriving DecidableEq

/-- Oracle behaviour of the external collaborators during one booking. -/
structure Collab where
  verifyResult : AvailCheckResult
  emailOk : Bool
  calendarOk : Bool
deriving DecidableEq

/-- The externally visible stores a booking touches. -/
structure BookWorld where
  calendarEvents : List Ivl
  emailsSent : List PatientData
  callLog : List PatientData
deriving DecidableEq

/-- Side effects attempted by `handle_book_appointment`, in order. -/
inductive Effect
  | availCheck
  | emailSend
  | calendarCreate
  | logCall
deriving DecidableEq

/-- Result dictionary of `handle_book_appointment`. -/
structure BookResult where
  success : Bool
  available : Option Bool
  email_sent : Option Bool
  calendar_added : Option Bool
  alternatives : List Nat
deriving DecidableEq

/-- The booked slot's interval. -/
def bookedIvl (pd : PatientData) : Ivl := ⟨pd.slotStart, pd.slotStart + pd.duration⟩

/-- Embedding of `handle_book_appointment`: re-check availability, gate on
`availability_check.get('available', True)`, and on commit attempt, in
source order, the confirmation email, the calendar event creation and the
call-record logging, reporting `success: True` with the email and calendar
outcomes as flags.  The third component records the side effects attempted,
in order. -/
def handle_book_appointment (c : Collab) (w : BookWorld) (pd : PatientData) :
    BookResult × BookWorld × List Effect :=
  let check := c.verifyResult
  if (check.available.getD true) = false then
    (⟨false, some false, none, none, check.alternatives⟩, w, [Effect.availCheck])
  else
    let emailRes := c.emailOk
    let w1 := if emailRes then { w with emailsSent := w.emailsSent ++ [pd] } else w
    let calRes := c.calendarOk
    let w2 := if calRes then { w1 with calendarEvents := w1.calendarEvents ++ [bookedIvl pd] } else w1
    let w3 := { w2 with callLog := w2.callLog ++ [pd] }
    (⟨true, none, some emailRes, some calRes, []⟩, w3,
      [Effect.availCheck, Effect.emailSend, Effect.calendarCreate, Effect.logCall])

/-- A stored calendar appointment as the cancellation verifier sees it. -/
structure CalEvent where
  date : Nat
  timeMin : Nat
  doctor : String
  patientName : String
  email : String
deriving DecidableEq

/-- A cancellation request. -/
structure CancelReq where
  patientName : String
  date : Nat
  timeMin : Nat
  doctorName : Option String
  email : Option String
deriving DecidableEq

/-- Two times of day are within the 15-minute cancellation tolerance. -/
def timeClose (a b : Nat) : Bool := decide (max a b - min a b ≤ 15)

/-- Modelled from the spec: the cancellation matching rule (the body of
`handle_cancel_appointment` is absent from the sources) — same date, same
doctor when one is requested, event time within 15 minutes of the requested
time, case-insensitive patient-name match, and email match when an email is
supplied. -/
def eventMatches (req : CancelReq) (ev : CalEvent) : Bool :=
  decide (ev.date = req.date) &&
  (match req.doctorName with
   | some d => decide (ev.doctor = d)
   | none => true) &&
  timeClose ev.timeMin req.timeMin &&
  decide (ev.patientName.toLower = req.patientName.toLower) &&
  (match req.email with
   | some m => decide (ev.email = m)
   | none => true)

/-- Result of a cancellation attempt. -/
structure CancelResult where
  success : Bool
  found : Bool
deriving DecidableEq

/-- Stores touched by a cancellation. -/
structure CancelState where
  events : List CalEvent
  cancellationEmails : List CalEvent
deriving DecidableEq

/-- Modelled from the spec: `CancellationVerifier.cancel` removes the first
matching calendar event and sends a cancellation notice; on no match it
returns a not-found result and changes nothing. -/
def CancellationVerifier.cancel (st : CancelState) (req : CancelReq) :
    CancelResult × CancelState :=
  match st.events.find? (eventMatches req) with
  | some ev =>
    (⟨true, true⟩,
     ⟨st.events.eraseP (eventMatches req), st.cancellationEmails ++ [ev]⟩)
  | none => (⟨false, false⟩, st)

/-- A patient record as held in the session cache and the durable store. -/
structure PatientRec where
  phone : String
  name : String
  email : String
deriving DecidableEq

/-- Customer tier tags returned by `detect_customer_type`. -/
inductive CustomerType
  | new
  | existing
  | returning
deriving DecidableEq

/-- Per-session bookkeeping data of `active_sessions`. -/
structure SessionData where
  id : String
  voice_id : String
  status : String
deriving DecidableEq

/-- The active call record of a session. -/
structure CallRecord where
  session_id : String
  caller_phone : String
  customer_name : String
  customer_email : String
  customer_type : CustomerType
  department_enquired : String
  doctor_enquired : String
  call_type : String
  start_time : Option Nat
  duration_seconds : Option Nat
deriving DecidableEq

/-- The global server state: the session patient cache `patient_database`,
the durable Google-Sheets store (`none` when the service is unavailable),
the active call records, the active sessions and the persisted call
records. -/
structure ServerState where
  patient_database : List (String × PatientRec)
  sheets : Option (List (String × PatientRec))
  session_call_records : List (String × CallRecord)
  active_sessions : List (String × SessionData)
  saved_call_records : List CallRecord
deriving DecidableEq

/-- Python dictionary assignment `d[k] = v` on an association list. -/
def dictSet {β : Type} (l : List (String × β)) (k : String) (v : β) :
    List (String × β) :=
  (k, v) :: l.eraseP (fun p => p.1 == k)

/-- Python dictionary deletion `del d[k]` on an association list. -/
def eraseKey {β : Type} (l : List (String × β)) (k : String) :
    List (String × β) :=
  l.eraseP (fun p => p.1 == k)

/-- Whether the durable store holds a record for this phone number. -/
def sheetsHasRecord (st : ServerState) (phone : String) : Bool :=
  match st.sheets with
  | some db => (db.lookup phone).isSome
  | none => false

/-- Embedding of `detect_customer_type`: session cache first (`existing`),
then the durable store (`returning`, cached as a side effect), else `new`
with no record created. -/
def detect_customer_type (st : ServerState) (phone : String) :
    (CustomerType × Option PatientRec) × ServerState :=
  match st.patient_database.lookup phone with
  | some r => ((CustomerType.existing, some r), st)
  | none =>
    match st.sheets with
    | some db =>
      match db.lookup phone with
      | some pr =>
        ((CustomerType.returning, some pr),
         { st with patient_database := dictSet st.patient_database phone pr })
      | none => ((CustomerType.new, none), st)
    | none => ((CustomerType.new, none), st)

/-- Arguments of a function call as seen by the call-record updater; the
empty string models an absent or falsy Python value. -/
structure FnArgs where
  phone : String
  patient_name : String
  email : String
  department : String
  doctor_name : String
deriving DecidableEq

/-- Python's `new or old` fallback on string fields. -/
def orElseStr (newVal oldVal : String) : String :=
  if newVal = "" then oldVal else newVal

/-- Embedding of `update_call_record_from_function`: return immediately when
the session has no active call record; otherwise, for booking-related
function names, run customer detection (which may cache a durable-store
record) and merge the argument fields into the call record. -/
def update_call_record_from_function (st : ServerState) (sid fname : String)
    (args : FnArgs) : ServerState :=
  match st.session_call_records.lookup sid with
  | none => st
  | some cr =>
    if fname = "book_appointment" ∨ fname = "send_appointment_email" then
      let det := detect_customer_type st args.phone
      let st1 := det.2
      let cr1 : CallRecord :=
        { cr with
          customer_name := orElseStr args.patient_name cr.customer_name
          customer_email := orElseStr args.email cr.customer_email
          caller_phone := orElseStr args.phone cr.caller_phone
          customer_type := det.1.1
          call_type := "appointment_booking"
          department_enquired :=
            if args.department = "" then cr.department_enquired else args.department
          doctor_enquired :=
            if args.doctor_name = "" then cr.doctor_enquired else args.doctor_name }
      { st1 with session_call_records := dictSet st1.session_call_records sid cr1 }
    else st

/-- Embedding of `SessionManager.cleanup_session`: when the session still has
an active call record, compute its duration from the start timestamp and the
current time, persist it, and delete the record and the session entry; when
it has none (second call), only the session-entry deletion guard runs, which
silently does nothing further. -/
def SessionManager.cleanup_session (st : ServerState) (sid : String) (now : Nat) :
    ServerState :=
  match st.session_call_records.lookup sid with
  | some cr =>
    let cr2 :=
      match cr.start_time with
      | some t0 => { cr with duration_seconds := some (now - t0) }
      | none => cr
    { st with
      saved_call_records := st.saved_call_records ++ [cr2]
      session_call_records := eraseKey st.session_call_records sid
      active_sessions := eraseKey st.active_sessions sid }
  | none => { st with active_sessions := eraseKey st.active_sessions sid }

/-- Result dictionary cached by the availability cache. -/
structure AvailResultC where
  available : Bool
  alternatives : List Nat
deriving DecidableEq

/-- The availability cache: key to (result, store timestamp), with a TTL. -/
structure AvailabilityCache where
  cache : List (String × (AvailResultC × Nat))
  ttl : Nat
deriving DecidableEq

/-- A fresh availability cache as built by `__init__` (TTL 300 seconds). -/
def AvailabilityCache.empty : AvailabilityCache := ⟨[], 300⟩

/-- The cache key `f"availability_{date}_{time}"`. -/
def cache_key (date time : String) : String :=
  "availability_" ++ date ++ "_" ++ time

/-- Embedding of `AvailabilityCache.check_availability`: serve a cached
result younger than the TTL, otherwise fetch fresh data and cache the
result only when it is available.  The Python snippet's `time` parameter
shadows the `time` module, so the clock is supplied explicitly as `now`. -/
def AvailabilityCache.check_availability (c : AvailabilityCache)
    (fetch : String → String → AvailResultC) (date time : String) (now : Nat) :
    AvailResultC × AvailabilityCache :=
  let key := cache_key date time
  let fresh :=
    let r := fetch date time
    if r.available then (r, { c with cache := dictSet c.cache key (r, now) })
    else (r, c)
  match c.cache.lookup key with
  | some (res, ts) => if now - ts < c.ttl then (res, c) else fresh
  | none => fresh

/-- Invariant: every cached availability result is a positive one. -/
def cacheInv (c : AvailabilityCache) : Prop :=
  ∀ e ∈ c.cache, e.2.1.available = true

/-! Helper lemmas on the association-list dictionary model. -/

theorem mem_of_lookup_eq_some {β : Type} {l : List (String × β)} {k : String} {v : β}
    (h : l.lookup k = some v) : (k, v) ∈ l := by
  induction l with
  | nil => simp [List.lookup] at h
  | cons a t ih =>
    obtain ⟨k1, v1⟩ := a
    rw [List.lookup] at h
    split at h
    · next heq =>
      cases h
      have hk : k = k1 := by simpa [beq_iff_eq] using heq
      subst hk
      exact List.mem_cons_self _ _
    · exact List.mem_cons_of_mem _ (ih h)

theorem lookup_eq_none_of_not_mem_keys {β : Type} {l : List (String × β)} {k : String}
    (h : k ∉ l.map Prod.fst) : l.lookup k = none := by
  induction l with
  | nil => rfl
  | cons a t ih =>
    obtain ⟨k1, v1⟩ := a
    simp only [List.map_cons, List.mem_cons, not_or] at h
    rw [List.lookup]
    have hne : (k == k1) = false := by
      simp [beq_iff_eq]
      exact h.1
    rw [hne]
    exact ih h.2

theorem not_mem_keys_eraseKey {β : Type} {l : List (String × β)} {k : String}
    (h : (l.map Prod.fst).Nodup) : k ∉ (eraseKey l k).map Prod.fst := by
  induction l with
  | nil => simp [eraseKey]
  | cons a t ih =>
    obtain ⟨k1, v1⟩ := a
    simp only [List.map_cons, List.nodup_cons] at h
    by_cases hk : k1 = k
    · subst hk
      have : eraseKey ((k1, v1) :: t) k1 = t := by
        simp [eraseKey, List.eraseP_cons]
      rw [this]
      intro hmem
      exact h.1 hmem
    · have : eraseKey ((k1, v1) :: t) k = (k1, v1) :: eraseKey t k := by
        simp only [eraseKey, List.eraseP_cons]
        have hb : ((k1, v1).1 == k) = false := by simp [beq_iff_eq, hk]
        rw [hb]
        rfl
      rw [this]
      simp only [List.map_cons, List.mem_cons, not_or]
      exact ⟨fun hc => hk hc.symm, ih h.2⟩

theorem lookup_eraseKey_self {β : Type} {l : List (String × β)} {k : String}
    (h : (l.map Prod.fst).Nodup) : (eraseKey l k).lookup k = none :=
  lookup_eq_none_of_not_mem_keys (not_mem_keys_eraseKey h)

theorem eraseKey_eraseKey {β : Type} {l : List (String × β)} {k : String}
    (h : (l.map Prod.fst).Nodup) : eraseKey (eraseKey l k) k = eraseKey l k := by
  apply List.eraseP_of_forall_not
  intro a ha
  have hmem : a.1 ∈ (eraseKey l k).map Prod.fst := List.mem_map_of_mem _ ha
  intro hbeq
  have : a.1 = k := by simpa [beq_iff_eq] using hbeq
  rw [this] at hmem
  exact not_mem_keys_eraseKey h hmem

theorem lookup_dictSet_self {β : Type} (l : List (String × β)) (k : String) (v : β) :
    (dictSet l k v).lookup k = some v := by
  simp [dictSet, List.lookup]

/-- The availability flag of `CalendarService.check_availability` is the
emptiness of the computed conflict list. -/
theorem check_availability_available_eq (allEvents : List Ivl) (s d : Nat) :
    (CalendarService.check_availability allEvents s d).available
      = (check_time_conflicts (listEvents allEvents s (s + d)) s (s + d)).isEmpty := by
  simp only [CalendarService.check_availability]
  split
  · next h => exact h.symm
  · next h =>
    have hf : (check_time_conflicts (listEvents allEvents s (s + d)) s (s + d)).isEmpty
        = false := by
      revert h
      cases (check_time_conflicts (listEvents allEvents s (s + d)) s (s + d)).isEmpty <;> simp
    exact hf.symm

/-! Claims. -/

/-- C4: two time intervals conflict exactly when they overlap by a positive
duration — touching endpoints do not conflict — and
`CalendarService.check_availability` returns `available = true` exactly when
no calendar event conflicts with the requested window. -/
theorem C4_conflict_positive_overlap (a b : Ivl)
    (ha : a.start < a.stop) (hb : b.start < b.stop) :
    (overlapsB a b = true ↔ 0 < min a.stop b.stop - max a.start b.start) ∧
    (a.stop = b.start → overlapsB a b = false) ∧
    (∀ (events : List Ivl) (s d : Nat),
      ((CalendarService.check_availability events s d).available = true ↔
        ∀ ev ∈ events, overlapsB ev ⟨s, s + d⟩ = false)) := by
  refine ⟨?_, ?_, ?_⟩
  · simp only [overlapsB, Bool.and_eq_true, decide_eq_true_eq]
    omega
  · intro h
    simp only [overlapsB, Bool.and_eq_false_iff, decide_eq_false_iff_not]
    omega
  · intro events s d
    have hfil : check_time_conflicts (listEvents events s (s + d)) s (s + d)
        = events.filter (fun ev => overlapsB ev ⟨s, s + d⟩) := by
      simp [check_time_conflicts, listEvents, List.filter_filter]
    rw [check_availability_available_eq, hfil, List.isEmpty_iff, List.filter_eq_nil_iff]
    simp only [Bool.not_eq_true]

theorem C4_conflict_positive_overlap_witness :
    overlapsB ⟨0, 30⟩ ⟨30, 60⟩ = false :=
  (C4_conflict_positive_overlap ⟨0, 30⟩ ⟨30, 60⟩ (by decide) (by decide)).2.1 rfl

/-- C1 counterexample: on a successfully verified slot the booking code
attempts the confirmation email before the calendar event creation, so the
claimed commit order (calendar event first, then email) is false on the
code, which also has no patient-record upsert step. -/
theorem C1_commit_order_counterexample :
    (handle_book_appointment ⟨⟨some true, []⟩, true, true⟩ ⟨[], [], []⟩
        ⟨"John Smith", "john@example.com", "+91-9876543210", 600, 30⟩).2.2 =
      [Effect.availCheck, Effect.emailSend, Effect.calendarCreate, Effect.logCall] ∧
    List.indexOf Effect.emailSend
        ((handle_book_appointment ⟨⟨some true, []⟩, true, true⟩ ⟨[], [], []⟩
          ⟨"John Smith", "john@example.com", "+91-9876543210", 600, 30⟩).2.2) <
      List.indexOf Effect.calendarCreate
        ((handle_book_appointment ⟨⟨some true, []⟩, true, true⟩ ⟨[], [], []⟩
          ⟨"John Smith", "john@example.com", "+91-9876543210", 600, 30⟩).2.2) :=
  ⟨rfl, by decide⟩

/-- C1 (amended): `handle_book_appointment` runs the availability re-check
first; when the check returns `available = false` it returns
`success = false` carrying the checker's alternatives and attempts no
commit side effect (the world is unchanged); otherwise it attempts the
commit side effects in source order — confirmation email, calendar event
creation, call-record logging — and there is no patient-record upsert
step. -/
theorem C1_amended_two_phase (c : Collab) (w : BookWorld) (pd : PatientData) :
    ((handle_book_appointment c w pd).2.2.head? = some Effect.availCheck) ∧
    (c.verifyResult.available = some false →
      handle_book_appointment c w pd =
        (⟨false, some false, none, none, c.verifyResult.alternatives⟩, w,
          [Effect.availCheck])) ∧
    (c.verifyResult.available.getD true = true →
      (handle_book_appointment c w pd).2.2 =
        [Effect.availCheck, Effect.emailSend, Effect.calendarCreate, Effect.logCall] ∧
      (handle_book_appointment c w pd).1.success = true) := by
  refine ⟨?_, ?_, ?_⟩
  · simp only [handle_book_appointment]
    split <;> rfl
  · intro h
    simp [handle_book_appointment, h]
  · intro h
    simp [handle_book_appointment, h]

theorem C1_amended_two_phase_witness :
    handle_book_appointment ⟨⟨some false, [660]⟩, true, true⟩ ⟨[], [], []⟩
        ⟨"John Smith", "john@example.com", "+91-9876543210", 600, 30⟩ =
      (⟨false, some false, none, none, [660]⟩, ⟨[], [], []⟩, [Effect.availCheck]) :=
  (C1_amended_two_phase _ _ _).2.1 rfl

/-- C2: evaluating the booking code at a verify-phase result that carries no
`available` flag — what a calendar collaborator failure produces — the
`.get('available', True)` gate treats the unknown status as available and
the commit phase runs: the email, the calendar creation and the call
logging are all attempted and the booking reports success. -/
theorem C2_verify_failure_fails_open :
    (handle_book_appointment ⟨⟨none, []⟩, true, true⟩ ⟨[], [], []⟩
        ⟨"John Smith", "john@example.com", "+91-9876543210", 600, 30⟩).1.success = true ∧
    (handle_book_appointment ⟨⟨none, []⟩, true, true⟩ ⟨[], [], []⟩
        ⟨"John Smith", "john@example.com", "+91-9876543210", 600, 30⟩).2.2 =
      [Effect.availCheck, Effect.emailSend, Effect.calendarCreate, Effect.logCall] :=
  ⟨rfl, rfl⟩

/-- C3: when the calendar event creation succeeds but the confirmation email
send fails, the booking still reports `success = true` with
`email_sent = false`, and the created calendar event stays in the calendar
world — it is never deleted or rolled back. -/
theorem C3_email_failure_degrades (vr : AvailCheckResult) (w : BookWorld) (pd : PatientData)
    (h : vr.available.getD true = true) :
    (handle_book_appointment ⟨vr, false, true⟩ w pd).1.success = true ∧
    (handle_book_appointment ⟨vr, false, true⟩ w pd).1.email_sent = some false ∧
    (handle_book_appointment ⟨vr, false, true⟩ w pd).2.1.calendarEvents =
      w.calendarEvents ++ [bookedIvl pd] := by
  refine ⟨?_, ?_, ?_⟩ <;> simp [handle_book_appointment, h]

theorem C3_email_failure_degrades_witness :
    (handle_book_appointment ⟨⟨some true, []⟩, false, true⟩ ⟨[], [], []⟩
        ⟨"Jane Doe", "jane@example.com", "+91-1112223334", 615, 30⟩).1.email_sent
      = some false :=
  (C3_email_failure_degrades ⟨some true, []⟩ ⟨[], [], []⟩
    ⟨"Jane Doe", "jane@example.com", "+91-1112223334", 615, 30⟩ rfl).2.1

/-- C9: a call-record update invoked for a session id with no entry in the
active call-record map returns immediately and leaves the whole server
state unchanged. -/
theorem C9_update_unknown_session (st : ServerState) (sid fname : String) (args : FnArgs)
    (h : st.session_call_records.lookup sid = none) :
    update_call_record_from_function st sid fname args = st := by
  unfold update_call_record_from_function
  rw [h]

/-- C6: cancellation finds an appointment exactly when a calendar event on
the requested date matches the doctor when one is given, lies within 15
minutes of the requested time, matches the patient name case-insensitively
and matches the email when one is supplied; a found event is removed, and
on no match the result is not-found with no side effect at all, so
repeating the failed cancellation is safe. -/
theorem C6_cancel_matching (st : CancelState) (req : CancelReq) :
    (∀ ev, eventMatches req ev = true ↔
      (ev.date = req.date ∧
       (∀ d, req.doctorName = some d → ev.doctor = d) ∧
       max ev.timeMin req.timeMin - min ev.timeMin req.timeMin ≤ 15 ∧
       ev.patientName.toLower = req.patientName.toLower ∧
       (∀ m, req.email = some m → ev.email = m))) ∧
    ((CancellationVerifier.cancel st req).1.found = true ↔
      ∃ ev ∈ st.events, eventMatches req ev = true) ∧
    ((∃ ev ∈ st.events, eventMatches req ev = true) →
      (CancellationVerifier.cancel st req).2.events.length + 1 = st.events.length) ∧
    ((CancellationVerifier.cancel st req).1.found = false →
      CancellationVerifier.cancel st req = (⟨false, false⟩, st)) := by
  refine ⟨?_, ?_, ?_, ?_⟩
  · intro ev
    rcases hd : req.doctorName with _ | d <;> rcases he : req.email with _ | m <;>
      simp [eventMatches, timeClose, hd, he, and_assoc]
  · rcases hf : st.events.find? (eventMatches req) with _ | ev
    · rw [List.find?_eq_none] at hf
      simp only [CancellationVerifier.cancel]
      rw [List.find?_eq_none.mpr hf]
      simp only [Bool.false_eq_true, false_iff, not_exists]
      intro ev hev
      exact absurd hev.2 (by simpa using hf ev hev.1)
    · simp only [CancellationVerifier.cancel, hf]
      simp only [true_iff]
      exact ⟨ev, List.mem_of_find?_eq_some hf, List.find?_some hf⟩
  · intro hex
    rcases hf : st.events.find? (eventMatches req) with _ | ev
    · rw [List.find?_eq_none] at hf
      obtain ⟨ev, hev, hm⟩ := hex
      exact absurd hm (by simpa using hf ev hev)
    · simp only [CancellationVerifier.cancel, hf]
      exact List.length_eraseP_add_one (List.mem_of_find?_eq_some hf) (List.find?_some hf)
  · rcases hf : st.events.find? (eventMatches req) with _ | ev
    · intro _
      simp [CancellationVerifier.cancel, hf]
    · intro hfound
      rw [CancellationVerifier.cancel] at hfound
      rw [hf] at hfound
      simp at hfound

theorem C6_cancel_matching_witness :
    CancellationVerifier.cancel
        ⟨[⟨20297, 600, "Dr. Patel", "John Smith", "john@example.com"⟩], []⟩
        ⟨"John Smith", 20297, 640, some "Dr. Patel", none⟩
      = (⟨false, false⟩,
         ⟨[⟨20297, 600, "Dr. Patel", "John Smith", "john@example.com"⟩], []⟩) :=
  (C6_cancel_matching _ _).2.2.2 (by decide)

/-- C7: customer identification resolves in order — session cache first (tag
existing with the cached record), then the durable store (tag returning,
with the record pulled into the session cache as a side effect), else tag
new with no record and no change to any state at all. -/
theorem C7_identify_resolution (st : ServerState) (phone : String) :
    (∀ r, st.patient_database.lookup phone = some r →
      detect_customer_type st phone = ((CustomerType.existing, some r), st)) ∧
    (st.patient_database.lookup phone = none →
      ∀ db r, st.sheets = some db → db.lookup phone = some r →
        (detect_customer_type st phone).1 = (CustomerType.returning, some r) ∧
        (detect_customer_type st phone).2.patient_database.lookup phone = some r ∧
        (detect_customer_type st phone).2.sheets = st.sheets ∧
        (detect_customer_type st phone).2.session_call_records
          = st.session_call_records) ∧
    (st.patient_database.lookup phone = none → sheetsHasRecord st phone = false →
      detect_customer_type st phone = ((CustomerType.new, none), st)) := by
  refine ⟨?_, ?_, ?_⟩
  · intro r h
    simp [detect_customer_type, h]
  · intro h db r hdb hr
    refine ⟨?_, ?_, ?_, ?_⟩ <;>
      simp [detect_customer_type, h, hdb, hr, lookup_dictSet_self]
  · intro h hs
    rcases hsh : st.sheets with _ | db
    · simp [detect_customer_type, h, hsh]
    · simp only [sheetsHasRecord, hsh] at hs
      have hln : db.lookup phone = none := by
        rcases hl : db.lookup phone with _ | r
        · rfl
        · rw [hl] at hs
          simp at hs
      simp [detect_customer_type, h, hsh, hln]

theorem C7_identify_resolution_witness :
    detect_customer_type ⟨[], none, [], [], []⟩ "+91-9876543210"
      = ((CustomerType.new, none), ⟨[], none, [], [], []⟩) :=
  (C7_identify_resolution ⟨[], none, [], [], []⟩ "+91-9876543210").2.2 rfl rfl

/-- C8 counterexample: calling `cleanup_session` a second time on the same
session id is silently ignored — it returns the state produced by the first
call unchanged and signals nothing — instead of raising or reporting a
programming error. -/
theorem C8_double_finalize_counterexample :
    SessionManager.cleanup_session
        (SessionManager.cleanup_session
          ⟨[], none,
           [("s1", ⟨"s1", "", "", "", CustomerType.new, "", "", "inquiry", some 10, none⟩)],
           [("s1", ⟨"s1", "Charon", "active"⟩)], []⟩ "s1" 100)
        "s1" 200
      = SessionManager.cleanup_session
          ⟨[], none,
           [("s1", ⟨"s1", "", "", "", CustomerType.new, "", "", "inquiry", some 10, none⟩)],
           [("s1", ⟨"s1", "Charon", "active"⟩)], []⟩ "s1" 100 := by
  rfl

/-- C8 (amended): the first `cleanup_session` computes the call duration
from the start timestamp and the cleanup time, persists the call record
exactly once and removes the session's entry from the active cache; a
second call on the same session id is a silent no-op on the state — it is
ignored rather than reported as a programming error. -/
theorem C8_amended_finalize_once (st : ServerState) (sid : String) (cr : CallRecord)
    (t0 now now2 : Nat)
    (hrec : st.session_call_records.lookup sid = some cr)
    (hstart : cr.start_time = some t0)
    (hnd : (st.session_call_records.map Prod.fst).Nodup)
    (hnda : (st.active_sessions.map Prod.fst).Nodup) :
    (SessionManager.cleanup_session st sid now).saved_call_records
      = st.saved_call_records ++ [{ cr with duration_seconds := some (now - t0) }] ∧
    (SessionManager.cleanup_session st sid now).session_call_records.lookup sid
      = none ∧
    SessionManager.cleanup_session (SessionManager.cleanup_session st sid now) sid now2
      = SessionManager.cleanup_session st sid now := by
  have hone : SessionManager.cleanup_session st sid now =
      { st with
        saved_call_records :=
          st.saved_call_records ++ [{ cr with duration_seconds := some (now - t0) }]
        session_call_records := eraseKey st.session_call_records sid
        active_sessions := eraseKey st.active_sessions sid } := by
    simp [SessionManager.cleanup_session, hrec, hstart]
  refine ⟨by rw [hone], ?_, ?_⟩
  · rw [hone]
    exact lookup_eraseKey_self hnd
  · rw [hone]
    have h2 : (eraseKey st.session_call_records sid).lookup sid = none :=
      lookup_eraseKey_self hnd
    simp [SessionManager.cleanup_session, h2, eraseKey_eraseKey hnda]

theorem C8_amended_finalize_once_witness :
    (SessionManager.cleanup_session
        ⟨[], none,
         [("s2", ⟨"s2", "", "", "", CustomerType.new, "", "", "inquiry", some 40, none⟩)],
         [("s2", ⟨"s2", "Kore", "active"⟩)], []⟩ "s2" 100).saved_call_records
      = [⟨"s2", "", "", "", CustomerType.new, "", "", "inquiry", some 40, some 60⟩] := by
  have h := C8_amended_finalize_once
    (⟨[], none,
      [("s2", ⟨"s2", "", "", "", CustomerType.new, "", "", "inquiry", some 40, none⟩)],
      [("s2", ⟨"s2", "Kore", "active"⟩)], []⟩ : ServerState)
    "s2" ⟨"s2", "", "", "", CustomerType.new, "", "", "inquiry", some 40, none⟩
    40 100 0 rfl rfl (by decide) (by decide)
  exact h.1.trans rfl

/-- C10: the availability cache stores only positive results — the invariant
holds for the fresh cache and is preserved by every query — so a negative
answer is never served from the cache (it always equals the fresh calendar
fetch), while a positive cached result younger than the TTL is served from
the cache without fetching. -/
theorem C10_cache_only_positive (c : AvailabilityCache)
    (fetch : String → String → AvailResultC) (date time : String) (now : Nat)
    (hinv : cacheInv c) :
    cacheInv AvailabilityCache.empty ∧
    cacheInv (AvailabilityCache.check_availability c fetch date time now).2 ∧
    ((AvailabilityCache.check_availability c fetch date time now).1.available = false →
      (AvailabilityCache.check_availability c fetch date time now).1
        = fetch date time) ∧
    (∀ res ts, c.cache.lookup (cache_key date time) = some (res, ts) →
      now - ts < c.ttl →
      AvailabilityCache.check_availability c fetch date time now = (res, c)) := by
  have hfreshinv :
      cacheInv (if (fetch date time).available = true then
          ({ c with cache := dictSet c.cache (cache_key date time) (fetch date time, now) }
            : AvailabilityCache)
        else c) := by
    by_cases hav : (fetch date time).available = true
    · rw [if_pos hav]
      intro e he
      simp only [dictSet, List.mem_cons] at he
      rcases he with he | he
      · rw [he]
        exact hav
      · exact hinv e ((List.eraseP_sublist _).subset he)
    · rw [if_neg hav]
      exact hinv
  refine ⟨?_, ?_, ?_, ?_⟩
  · intro e he
    simp [AvailabilityCache.empty] at he
  · simp only [AvailabilityCache.check_availability]
    rcases hl : c.cache.lookup (cache_key date time) with _ | rt
    · by_cases hav : (fetch date time).available = true
      · simpa [hav] using hfreshinv
      · simp only [Bool.not_eq_true] at hav
        simpa [hav] using hinv
    · obtain ⟨res, ts⟩ := rt
      by_cases htl : now - ts < c.ttl
      · simpa [htl] using hinv
      · by_cases hav : (fetch date time).available = true
        · simpa [htl, hav] using hfreshinv
        · simp only [Bool.not_eq_true] at hav
          simpa [htl, hav] using hinv
  · intro hneg
    rcases hl : c.cache.lookup (cache_key date time) with _ | rt
    · simp only [AvailabilityCache.check_availability, hl] at hneg ⊢
      split <;> rfl
    · obtain ⟨res, ts⟩ := rt
      by_cases htl : now - ts < c.ttl
      · have hmem := mem_of_lookup_eq_some hl
        have := hinv _ hmem
        simp only [AvailabilityCache.check_availability, hl, htl, if_true] at hneg
        rw [this] at hneg
        simp at hneg
      · simp only [AvailabilityCache.check_availability, hl, htl, if_false] at hneg ⊢
        split <;> rfl
  · intro res ts hl htl
    simp [AvailabilityCache.check_availability, hl, htl]

theorem C10_cache_only_positive_witness :
    AvailabilityCache.check_availability
        ⟨[("availability_2024-12-25_10:00 AM", (⟨true, []⟩, 0))], 300⟩
        (fun _ _ => ⟨false, []⟩) "2024-12-25" "10:00 AM" 100
      = (⟨true, []⟩, ⟨[("availability_2024-12-25_10:00 AM", (⟨true, []⟩, 0))], 300⟩) :=
  (C10_cache_only_positive _ _ _ _ _ (by unfold cacheInv; decide)).2.2.2 ⟨true, []⟩ 0
    (by decide) (by decide)

/-- Candidate slot starts of the forward scan are spaced at least one slot
length apart. -/
theorem candidateStart_mono {i j : Nat} (h : i < j) :
    candidateStart i + stepMin ≤ candidateStart j := by
  simp only [candidateStart, stepMin, workStartMin,
    show slotsPerDay = 18 from rfl]
  omega

/-- Each candidate slot start lies within the working hours. -/
theorem candidateStart_inWorkingHours (i : Nat) :
    inWorkingHours (candidateStart i) = true := by
  simp only [inWorkingHours, candidateStart, workStartMin, workEndMin, stepMin,
    show slotsPerDay = 18 from rfl, Bool.and_eq_true, decide_eq_true_eq]
  omega

/-- Non-overlap of slot intervals is symmetric. -/
theorem overlapsB_symm_false {a b : Ivl} (h : overlapsB a b = false) :
    overlapsB b a = false := by
  simp only [overlapsB, Bool.and_eq_false_iff, decide_eq_false_iff_not] at h ⊢
  omega

/-- Slots spaced at least one slot length apart do not overlap. -/
theorem gap_no_overlap {a b : Nat} (h : a + stepMin ≤ b) :
    overlapsB (slotIvl a) (slotIvl b) = false := by
  simp only [stepMin] at h
  simp only [overlapsB, slotIvl, stepMin, Bool.and_eq_false_iff,
    decide_eq_false_iff_not]
  omega

/-- The candidate scan is pairwise spaced by at least one slot length. -/
theorem candidates_pairwise (w : Nat) :
    (candidates w).Pairwise (fun a b => a + stepMin ≤ b) := by
  unfold candidates
  rw [List.pairwise_map]
  exact (List.pairwise_lt_range _).imp (fun h => candidateStart_mono h)

/-- C5: the slot allocator's suggestions contain no two mutually overlapping
slots, lie entirely within the configured working hours, and number at most
the requested count. -/
theorem C5_suggest_consistent (events : List Ivl) (req windowDays count : Nat) :
    (SlotAllocator.suggest events req windowDays count).Pairwise
      (fun a b => overlapsB (slotIvl a) (slotIvl b) = false) ∧
    (SlotAllocator.suggest events req windowDays count).all inWorkingHours = true ∧
    (SlotAllocator.suggest events req windowDays count).length ≤ count := by
  refine ⟨?_, ?_, ?_⟩
  · have h1 : ((candidates windowDays).filter (slotFree events)).Pairwise
        (fun a b => a + stepMin ≤ b) :=
      List.Pairwise.sublist (List.filter_sublist _) (candidates_pairwise windowDays)
    have h1o : ((candidates windowDays).filter (slotFree events)).Pairwise
        (fun a b => overlapsB (slotIvl a) (slotIvl b) = false) :=
      h1.imp (fun h => gap_no_overlap h)
    have hperm := List.mergeSort_perm
      ((candidates windowDays).filter (slotFree events)) (rankLe req)
    have h2 : (((candidates windowDays).filter (slotFree events)).mergeSort
        (rankLe req)).Pairwise
        (fun a b => overlapsB (slotIvl a) (slotIvl b) = false) :=
      (List.Perm.pairwise_iff (fun h => overlapsB_symm_false h) hperm).mpr h1o
    exact List.Pairwise.sublist (List.take_sublist _ _) h2
  · rw [List.all_eq_true]
    intro s hs
    simp only [SlotAllocator.suggest] at hs
    have h1 : s ∈ ((candidates windowDays).filter (slotFree events)).mergeSort
        (rankLe req) :=
      (List.take_sublist _ _).subset hs
    have h2 : s ∈ (candidates windowDays).filter (slotFree events) :=
      (List.mergeSort_perm _ _).mem_iff.mp h1
    have h3 : s ∈ candidates windowDays := (List.filter_sublist _).subset h2
    obtain ⟨i, hi, rfl⟩ := List.mem_map.mp h3
    exact candidateStart_inWorkingHours i
  · simp only [SlotAllocator.suggest, List.length_take]
    exact Nat.min_le_left _ _

theorem C9_update_unknown_session_witness :
    update_call_record_from_function ⟨[], none, [], [], []⟩ "s1" "book_appointment"
        ⟨"+91-9876543210", "John Smith", "john@example.com", "Cardiology", "Dr. Patel"⟩
      = ⟨[], none, [], [], []⟩ :=
  C9_update_unknown_session _ _ _ _ rfl

end VoiceAgent
